import Mathlib

/-!
Verification of the dagster_ncei weather pipeline
(`src/weather_pipeline.py`, `src/weather_pipline.py`).

The Python functions are shallowly embedded as executable Lean
definitions.  Python exceptions become an explicit `PyError` type and
fallible code returns `Except PyError`.  Python `float` values are
modelled as exact rationals (`ℚ`); JSON values as an inductive `Json`
type whose objects are insertion-ordered association lists (Python
dicts).  Network responses and the wall clock are passed in as explicit
parameters; filesystem and HTTP side effects are recorded in an
explicit `Effect` trace.
-/

set_option maxRecDepth 4096

/-- Python exceptions that the pipeline can raise.  `keyError` carries
the message / key so that the deliberate schema `KeyError("API response
structure unexpected.")` in `fetch_forecast` is distinguishable from an
ordinary missing-key `KeyError`. -/
inductive PyError where
  | valueError
  | keyError (key : String)
  | indexError
  | typeError
  | httpError
  | maxRetryError
deriving DecidableEq, Repr

/-- JSON values as decoded by `response.json()`: Python dicts are
insertion-ordered association lists, numbers are exact rationals. -/
inductive Json where
  | null
  | bool (b : Bool)
  | num (q : ℚ)
  | str (s : String)
  | arr (items : List Json)
  | obj (entries : List (String × Json))

/-- First-match lookup in a Python dict (association list). -/
def jlookup (k : String) : List (String × Json) → Option Json
  | [] => none
  | e :: rest => if e.1 = k then some e.2 else jlookup k rest

/-- Python subscript `j[k]`: `KeyError` on a missing key of a dict,
`TypeError` when the value is not a dict. -/
def getItem (j : Json) (k : String) : Except PyError Json :=
  match j with
  | .obj entries =>
    match jlookup k entries with
    | some v => .ok v
    | none => .error (.keyError k)
  | _ => .error .typeError

/-- Python dict assignment `d[k] = v`: overwrite in place when the key
is present (Python dicts preserve insertion order), append otherwise. -/
def dictSet (entries : List (String × Json)) (k : String) (v : Json) :
    List (String × Json) :=
  if entries.any (fun e => e.1 = k) then
    entries.map (fun e => if e.1 = k then (k, v) else e)
  else
    entries ++ [(k, v)]

/-- The whitespace characters stripped by Python `str.strip()`
(restricted to ASCII, which covers the pipeline's inputs). -/
def isPySpace (c : Char) : Bool :=
  c = ' ' || c = '\t' || c = '\n' || c = '\r' || c = '\x0b' || c = '\x0c'

/-- Python `str.strip()` on a character list. -/
def pyStrip (l : List Char) : List Char :=
  ((l.dropWhile isPySpace).reverse.dropWhile isPySpace).reverse

/-- Python `str.split(sep)` for a two-character separator `[a, b]`
(the pipeline only splits on the separators `", "` and `": "`):
leftmost non-overlapping matches, empty pieces kept. -/
def pySplit2 (a b : Char) : List Char → List (List Char)
  | [] => [[]]
  | [c] => [[c]]
  | c1 :: c2 :: rest =>
    if c1 = a ∧ c2 = b then
      [] :: pySplit2 a b rest
    else
      match pySplit2 a b (c2 :: rest) with
      | [] => [[c1]]
      | piece :: pieces => (c1 :: piece) :: pieces

/-- Numeric value of a digit string (most significant digit first). -/
def natVal (l : List Char) : Nat :=
  l.foldl (fun a c => 10 * a + (c.toNat - 48)) 0

/-- Unsigned part of Python `float(...)` string conversion, modelled
exactly over rationals: integer digits, optionally a point and
fraction digits, at least one digit overall.  (Exponents, `inf`/`nan`
and digit-group underscores, which the pipeline never receives, are
omitted.) -/
def pyFloatUnsigned (l : List Char) : Option ℚ :=
  let ip := l.takeWhile (fun c => c.isDigit)
  match l.dropWhile (fun c => c.isDigit) with
  | [] => if ip = [] then none else some (natVal ip)
  | c :: r2 =>
    if c = '.' then
      let fp := r2.takeWhile (fun d => d.isDigit)
      if r2.dropWhile (fun d => d.isDigit) = [] ∧ (ip ≠ [] ∨ fp ≠ []) then
        some ((natVal ip : ℚ) + (natVal fp : ℚ) / 10 ^ fp.length)
      else none
    else none

/-- Signed decimal literal accepted by Python `float(...)` (after
whitespace stripping). -/
def pyFloatCore (l : List Char) : Option ℚ :=
  match l with
  | [] => none
  | c :: r =>
    if c = '+' then pyFloatUnsigned r
    else if c = '-' then (pyFloatUnsigned r).map (fun q => -q)
    else pyFloatUnsigned l

/-- Python `float(s)`: strips surrounding whitespace, then parses the
decimal literal; `ValueError` (here `none`) otherwise. -/
def pyFloat (l : List Char) : Option ℚ := pyFloatCore (pyStrip l)

/-- The Coordinate produced by the Input Loader. -/
structure Coord where
  latitude : ℚ
  longitude : ℚ
deriving DecidableEq, Repr

deriving instance DecidableEq for Except

/-- One step of the dict comprehension in `parse_latlon`: split a
piece on `": "`, take index 0 as key and index 1 as value
(`IndexError` when absent), convert the value with `float`
(`ValueError` on failure), and assign into the accumulated dict. -/
def latlonDictStep (acc : List (List Char × ℚ)) (part : List Char) :
    Except PyError (List (List Char × ℚ)) := do
  let kv := pySplit2 ':' ' ' part
  let key := kv.headD []
  let valStr ← match kv.get? 1 with
    | some v => Except.ok v
    | none => Except.error PyError.indexError
  let q ← match pyFloat valStr with
    | some q => Except.ok q
    | none => Except.error PyError.valueError
  if acc.any (fun e => e.1 = key) then
    pure (acc.map (fun e => if e.1 = key then (key, q) else e))
  else
    pure (acc ++ [(key, q)])

/-- The dict comprehension in `parse_latlon`, processing the `", "`
pieces left to right. -/
def latlonDict : List (List Char) → List (List Char × ℚ) →
    Except PyError (List (List Char × ℚ))
  | [], acc => .ok acc
  | part :: rest, acc => do
    let acc2 ← latlonDictStep acc part
    latlonDict rest acc2

/-- First-match lookup `d[k]` in the latlon dict (`KeyError` if
absent). -/
def latlonGet (d : List (List Char × ℚ)) (k : List Char) :
    Except PyError ℚ :=
  match d.find? (fun e => e.1 = k) with
  | some e => .ok e.2
  | none => .error (.keyError (String.mk k))

/-- The bounds check and result construction at the end of
`parse_latlon`. -/
def latlonBoundsCheck (latitude longitude : ℚ) : Except PyError Coord :=
  if ¬(-90 ≤ latitude ∧ latitude ≤ 90) ∨
     ¬(-180 ≤ longitude ∧ longitude ≤ 180) then
    .error .valueError
  else
    .ok { latitude := latitude, longitude := longitude }

/-- `parse_latlon` from `weather_pipeline.py` (lines 29-40), applied to
the file content: strip the line, split on `", "`, build the dict by
splitting each piece on `": "` and converting index 1 with `float`,
look up the keys `lat` and `lon`, enforce the coordinate bounds
(`ValueError` on violation). -/
def parse_latlon (content : String) : Except PyError Coord := do
  let latlon := pyStrip content.data
  let parts := pySplit2 ',' ' ' latlon
  let d ← latlonDict parts []
  let latitude ← latlonGet d ['l', 'a', 't']
  let longitude ← latlonGet d ['l', 'o', 'n']
  latlonBoundsCheck latitude longitude

/-- Characters admitted by the local part `[a-zA-Z0-9._%+-]` of the
email pattern. -/
def isLocalChar (c : Char) : Bool :=
  c.isAlpha || c.isDigit || c = '.' || c = '_' || c = '%' || c = '+' || c = '-'

/-- Characters admitted by the domain part `[a-zA-Z0-9.-]` of the
email pattern. -/
def isDomainChar (c : Char) : Bool :=
  c.isAlpha || c.isDigit || c = '.' || c = '-'

/-- Decision procedure for the part of the email regex after the `@`:
`[a-zA-Z0-9.-]+\.[a-zA-Z]\x7b2,\x7d` anchored at the end.  Because the
TLD class contains no dot, the pattern dot is necessarily the last dot
of the string: the maximal alphabetic suffix must have length at least
2, be preceded by a dot, and the rest must be a nonempty run of domain
characters. -/
def emailDomainPart (l : List Char) : Bool :=
  let r := l.reverse
  let tld := r.takeWhile (fun c => c.isAlpha)
  let rest := r.dropWhile (fun c => c.isAlpha)
  decide (2 ≤ tld.length) &&
    match rest with
    | '.' :: d => !d.isEmpty && d.all isDomainChar
    | _ => false

/-- Decision procedure for the anchored email regex
`[a-zA-Z0-9._%+-]+@[a-zA-Z0-9.-]+\.[a-zA-Z]\x7b2,\x7d`: since neither
character class contains `@`, the local part is exactly the prefix
before the first `@`. -/
def emailCore (l : List Char) : Bool :=
  let a := l.takeWhile (fun c => c ≠ '@')
  match l.dropWhile (fun c => c ≠ '@') with
  | '@' :: b => !a.isEmpty && a.all isLocalChar && emailDomainPart b
  | _ => false

/-- `is_valid_email` from `weather_pipeline.py` (lines 25-27):
`re.match` of the pattern `^[a-zA-Z0-9._%+-]+@[a-zA-Z0-9.-]+\.`
`[a-zA-Z]\x7b2,\x7d$` against the string.  Python `$` also matches just
before a single trailing newline, hence the second disjunct. -/
def is_valid_email (email : String) : Bool :=
  emailCore email.data ||
    (email.data.getLast? = some '\n' && emailCore email.data.dropLast)

/-- `read_email` from `weather_pipeline.py` (lines 42-48), applied to
the file content: strip, validate with `is_valid_email`, `ValueError`
when invalid. -/
def read_email (content : String) : Except PyError String :=
  let email := String.mk (pyStrip content.data)
  if is_valid_email email then .ok email else .error .valueError

/-- A Python `datetime.date`: the constructor enforces
1 ≤ year ≤ 9999, 1 ≤ month ≤ 12, 1 ≤ day ≤ days in the month. -/
structure PyDate where
  year : ℕ
  month : ℕ
  day : ℕ
deriving DecidableEq, Repr

/-- A Python `datetime.time` (whole seconds; the pipeline's format
string prints no fraction). -/
structure PyTime where
  hour : ℕ
  minute : ℕ
  second : ℕ
deriving DecidableEq, Repr

/-- A naive Python `datetime.datetime`. -/
structure PyDateTime where
  date : PyDate
  time : PyTime
deriving DecidableEq, Repr

/-- Gregorian leap-year rule used by `datetime`. -/
def isLeapYear (y : ℕ) : Bool :=
  (y % 4 = 0 && y % 100 ≠ 0) || y % 400 = 0

/-- Days in a month, as validated by the `datetime` constructor. -/
def daysInMonth (y m : ℕ) : ℕ :=
  if m = 2 then (if isLeapYear y then 29 else 28)
  else if m = 4 ∨ m = 6 ∨ m = 9 ∨ m = 11 then 30
  else 31

/-- Value of an ASCII digit character. -/
def parseDigit (c : Char) : Option ℕ :=
  if c.isDigit then some (c.toNat - 48) else none

/-- Consume exactly two digits. -/
def parse2 : List Char → Option (ℕ × List Char)
  | c1 :: c2 :: rest =>
    match parseDigit c1, parseDigit c2 with
    | some d1, some d2 => some (10 * d1 + d2, rest)
    | _, _ => none
  | _ => none

/-- Consume exactly four digits. -/
def parse4 : List Char → Option (ℕ × List Char)
  | c1 :: c2 :: c3 :: c4 :: rest =>
    match parseDigit c1, parseDigit c2, parseDigit c3, parseDigit c4 with
    | some d1, some d2, some d3, some d4 =>
      some (1000 * d1 + 100 * d2 + 10 * d3 + d4, rest)
    | _, _, _, _ => none
  | _ => none

/-- The date part `YYYY-MM-DD` of `datetime.fromisoformat`, with the
validity checks of the `datetime` constructor (year 0 is rejected;
four digits bound the year by 9999). -/
def parseDateChars (l : List Char) : Option (PyDate × List Char) :=
  match parse4 l with
  | none => none
  | some (y, r1) =>
    match r1 with
    | [] => none
    | c :: r2 =>
      if c = '-' then
        match parse2 r2 with
        | none => none
        | some (m, r3) =>
          match r3 with
          | [] => none
          | c2 :: r4 =>
            if c2 = '-' then
              match parse2 r4 with
              | none => none
              | some (d, r5) =>
                if 1 ≤ y ∧ 1 ≤ m ∧ m ≤ 12 ∧ 1 ≤ d ∧
                    d ≤ daysInMonth y m then
                  some (⟨y, m, d⟩, r5)
                else none
            else none
      else none

/-- Range checks of the `datetime` constructor for a time. -/
def mkTimeChecked (h m s : ℕ) : Option PyTime :=
  if h ≤ 23 ∧ m ≤ 59 ∧ s ≤ 59 then some ⟨h, m, s⟩ else none

/-- The time part `HH[:MM[:SS]]` of `datetime.fromisoformat`, which
must consume the remaining input.  (Fractional seconds and UTC
offsets, which the pipeline's Z-stripped inputs never contain, are
omitted.) -/
def parseTimeChars (l : List Char) : Option PyTime :=
  match parse2 l with
  | none => none
  | some (h, r1) =>
    match r1 with
    | [] => mkTimeChecked h 0 0
    | c :: r2 =>
      if c = ':' then
        match parse2 r2 with
        | none => none
        | some (m, r3) =>
          match r3 with
          | [] => mkTimeChecked h m 0
          | c2 :: r4 =>
            if c2 = ':' then
              match parse2 r4 with
              | none => none
              | some (s, r5) =>
                if r5 = [] then mkTimeChecked h m s else none
            else none
      else none

/-- `datetime.fromisoformat`: `YYYY-MM-DD`, optionally followed by a
single separator character (any character, per CPython) and a time.
Python raises `ValueError` on failure, modelled by `none`. -/
def fromisoformat (s : String) : Option PyDateTime :=
  match parseDateChars s.data with
  | none => none
  | some (d, rest) =>
    match rest with
    | [] => some ⟨d, ⟨0, 0, 0⟩⟩
    | _ :: r =>
      match parseTimeChars r with
      | none => none
      | some t => some ⟨d, t⟩

/-- The ASCII digit character for a value below 10. -/
def digitChar (n : ℕ) : Char := Char.ofNat (48 + n)

/-- Zero-padded two-digit rendering. -/
def z2 (n : ℕ) : List Char := [digitChar (n / 10), digitChar (n % 10)]

/-- Zero-padded four-digit rendering. -/
def z4 (n : ℕ) : List Char :=
  [digitChar (n / 1000), digitChar (n / 100 % 10),
   digitChar (n / 10 % 10), digitChar (n % 10)]

/-- `%Y-%m-%d` rendering of a date.  (`%Y` zero-pads to four digits;
this matches CPython on all four-digit years, which is every year a
four-digit ISO input can produce.) -/
def dateChars (d : PyDate) : List Char :=
  z4 d.year ++ '-' :: (z2 d.month ++ '-' :: z2 d.day)

/-- `%H:%M:%S` rendering of a time. -/
def timeChars (t : PyTime) : List Char :=
  z2 t.hour ++ ':' :: (z2 t.minute ++ ':' :: z2 t.second)

/-- `datetime.strftime` with the pipeline's format string
`%Y-%m-%d %H:%M:%S`. -/
def strftime (dt : PyDateTime) : String :=
  String.mk (dateChars dt.date ++ ' ' :: timeChars dt.time)

/-- Python `s.replace("Z", "")`: removes every occurrence of the
one-character pattern. -/
def stripZ (s : String) : String :=
  String.mk (s.data.filter (fun c => c ≠ 'Z'))

/-- The per-period time conversion of `parse_forecast`:
`datetime.fromisoformat(p["startTime"].replace("Z", "")).strftime(`
`"%Y-%m-%d %H:%M:%S")`.  A non-string value lacks `.replace`
(`AttributeError`, modelled as `typeError`); an unparseable string is
a `ValueError`. -/
def formatStartTime (startTime : Json) : Except PyError String :=
  match startTime with
  | .str s =>
    match fromisoformat (stripZ s) with
    | some dt => .ok (strftime dt)
    | none => .error .valueError
  | _ => .error .typeError

/-- A Python list comprehension over `Except`: left to right, first
exception propagates. -/
def exceptMap (f : Json → Except PyError α) :
    List Json → Except PyError (List α)
  | [] => .ok []
  | p :: ps => do
    let a ← f p
    let rest ← exceptMap f ps
    .ok (a :: rest)

/-- The list underlying an iterated JSON value (iterating a non-list
`periods` in the comprehensions is modelled as `TypeError`). -/
def asArr (j : Json) : Except PyError (List Json) :=
  match j with
  | .arr items => .ok items
  | _ => .error .typeError

/-- `parse_forecast` from `weather_pipeline.py` (lines 127-136):
read `properties.periods`, collect the `temperature` values unchanged,
then the reformatted `startTime` values, and return the dict
`\x7b"temperatures": ..., "times": ...\x7d`. -/
def parse_forecast (forecast_data : Json) : Except PyError Json := do
  let props ← getItem forecast_data "properties"
  let periods ← getItem props "periods"
  let ps ← asArr periods
  let temperatures ← exceptMap (fun p => getItem p "temperature") ps
  let times ← exceptMap (fun p => do
    let st ← getItem p "startTime"
    formatStartTime st) ps
  pure (.obj [("temperatures", .arr temperatures),
              ("times", .arr (times.map Json.str))])

/-- `response.raise_for_status()`: `requests.HTTPError` on any 4xx/5xx
status. -/
def raise_for_status (status : ℕ) : Except PyError Unit :=
  if 400 ≤ status then .error .httpError else .ok ()

/-- `fetch_metadata` from `weather_pipeline.py` (lines 96-112),
with the HTTP exchange modelled by the response status and decoded
JSON body passed as parameters: after `raise_for_status`, the decoded
body gets `metadata["email"] = email` and is returned.  (The URL and
User-Agent header construction are pure and do not affect the returned
value.) -/
def fetch_metadata (status : ℕ) (body : Json) (email : String) :
    Except PyError Json := do
  raise_for_status status
  match body with
  | .obj entries => pure (.obj (dictSet entries "email" (.str email)))
  | _ => .error .typeError

/-- Python `k in container` for a string key: dict key membership,
list membership (a string equals only an equal string), substring test
on a string, `TypeError` otherwise. -/
def pyContains (container : Json) (k : String) : Except PyError Bool :=
  match container with
  | .obj entries => .ok (entries.any (fun e => e.1 = k))
  | .arr items => .ok (items.any (fun j => match j with
      | .str s => s = k
      | _ => false))
  | .str s => .ok (decide (k.data <:+: s.data))
  | _ => .error .typeError

/-- Externally visible side effects of the pipeline stages. -/
inductive Effect where
  | mkdirParent (path : String)
  | httpGet (url : String)
  | savefig (path : String)
  | showFig
deriving DecidableEq, Repr

/-- `fetch_forecast` from `weather_pipeline.py` (lines 114-125), with
the network modelled by `resp` mapping a URL to a response status and
decoded body, and the requests actually issued recorded as effects:
if `properties` is missing, or `forecast` is not in
`metadata["properties"]`, raise `KeyError("API response structure`
`unexpected.")` before any request; otherwise extract the forecast
URL and the email (the header is built from it), issue the single GET,
and return the decoded body after `raise_for_status`. -/
def fetch_forecast (resp : String → ℕ × Json) (metadata : Json) :
    List Effect × Except PyError Json :=
  match metadata with
  | .obj entries =>
    match jlookup "properties" entries with
    | none => ([], .error (.keyError "API response structure unexpected."))
    | some props =>
      match pyContains props "forecast" with
      | .error e => ([], .error e)
      | .ok false =>
        ([], .error (.keyError "API response structure unexpected."))
      | .ok true =>
        match getItem props "forecast" with
        | .error e => ([], .error e)
        | .ok u =>
          match jlookup "email" entries with
          | none => ([], .error (.keyError "email"))
          | some _ =>
            match u with
            | .str url =>
              let r := resp url
              ([.httpGet url],
               (raise_for_status r.1).map (fun _ => r.2))
            | _ => ([], .error .typeError)
  | _ => ([], .error .typeError)

/-- The `urllib3.util.retry.Retry` configuration constructed by
`get_session_with_retries`. -/
structure RetryConfig where
  total : ℕ
  backoff_factor : ℚ
  status_forcelist : List ℕ
deriving DecidableEq, Repr

/-- `get_session_with_retries` from `weather_pipeline.py`
(lines 17-23): `Retry(total=3, backoff_factor=0.3,`
`status_forcelist=[500, 502, 503, 504])` mounted on the session. -/
def get_session_with_retries : RetryConfig :=
  { total := 3, backoff_factor := 3 / 10,
    status_forcelist := [500, 502, 503, 504] }

/-- Modelled from urllib3 `Retry` semantics, which the mounted adapter
delegates to: issue the request; a status in the forcelist consumes
one retry from the budget and the request is reissued; when the budget
is exhausted a further forcelisted status raises `MaxRetryError`; any
other status is returned immediately.  `resp n` is the status of the
(n+1)-th request; the returned list records the statuses of the
requests actually made. -/
def sessionRequestAux (forcelist : List ℕ) (resp : ℕ → ℕ) :
    ℕ → ℕ → List ℕ × Except PyError ℕ
  | retriesLeft, i =>
    let s := resp i
    if s ∈ forcelist then
      match retriesLeft with
      | 0 => ([s], .error .maxRetryError)
      | k + 1 =>
        let rest := sessionRequestAux forcelist resp k (i + 1)
        (s :: rest.1, rest.2)
    else ([s], .ok s)

/-- One `session.get` through the retry-mounted adapter. -/
def sessionRequest (cfg : RetryConfig) (resp : ℕ → ℕ) :
    List ℕ × Except PyError ℕ :=
  sessionRequestAux cfg.status_forcelist resp cfg.total 0

/-- urllib3 backoff before retry number `numRetries` (1-based):
`backoff_factor * 2 ^ (numRetries - 1)` seconds. -/
def get_backoff_time (cfg : RetryConfig) (numRetries : ℕ) : ℚ :=
  cfg.backoff_factor * 2 ^ (numRetries - 1)

/-- Python `l[::step]` for a positive step. -/
def everyNth : List α → ℕ → List α
  | [], _ => []
  | x :: xs, step => x :: everyNth (xs.drop (step - 1)) step
termination_by l => l.length
decreasing_by simp [List.length_drop]; omega

/-- The figure produced by `plot_temperature` (the arguments handed to
matplotlib; rendering internals are the plotting library's concern). -/
structure Chart where
  figwidth : ℚ
  figheight : ℚ
  x : List Json
  y : List Json
  xticks : List Json
  xticklabels : List String
  rotation : ℕ
  suptitleLat : ℚ
  suptitleLon : ℚ
  subtitleStart : Json
  path : String

/-- `plot_temperature` from `weather_pipeline.py` (lines 138-163),
with the wall clock (`datetime.now().strftime(...)`) passed in as
`now` and the filesystem effects recorded: the parent directory is
created first; then the series is read from the dict
(`KeyError` on a missing key), `ax.plot` rejects mismatched lengths
(`ValueError`), `time.replace` needs strings (`AttributeError`,
modelled as `typeError`), the title's `times[0]` raises `IndexError`
on an empty series, and only then is the figure saved and shown. -/
def plot_temperature (forecast : Json) (latitude longitude : ℚ)
    (save_location : Option String) (now : String) :
    List Effect × Except PyError Chart :=
  let path := save_location.getD ("forecast_plot_" ++ now ++ ".png")
  let effs := [Effect.mkdirParent path]
  match getItem forecast "temperatures" with
  | .error e => (effs, .error e)
  | .ok temperaturesJ =>
    match getItem forecast "times" with
    | .error e => (effs, .error e)
    | .ok timesJ =>
      match temperaturesJ, timesJ with
      | .arr temperatures, .arr times =>
        let figwidth : ℚ := max 15 ((times.length : ℚ) * (6 / 10))
        if times.length ≠ temperatures.length then (effs, .error .valueError)
        else
          match exceptMap (fun t => match t with
            | .str s => .ok (String.mk (s.data.map
                (fun c => if c = ' ' then '\n' else c)))
            | _ => .error .typeError) times with
          | .error e => (effs, .error e)
          | .ok formatted =>
            let step := max 1 (times.length / 10)
            match times.head? with
            | none => (effs, .error .indexError)
            | some t0 =>
              (effs ++ [.savefig path, .showFig],
               .ok { figwidth := figwidth, figheight := 6,
                     x := times, y := temperatures,
                     xticks := everyNth times step,
                     xticklabels := everyNth formatted step,
                     rotation := 20,
                     suptitleLat := latitude, suptitleLon := longitude,
                     subtitleStart := t0, path := path })
      | _, _ => (effs, .error .typeError)

/-- Characters that can occur in a decimal literal accepted by
`pyFloatCore`. -/
def goodFloatChar (c : Char) : Bool :=
  c.isDigit || c = '+' || c = '-' || c = '.'

/-- The characters of the key `lat`. -/
def latKey : List Char := ['l', 'a', 't']

/-- The characters of the key `lon`. -/
def lonKey : List Char := ['l', 'o', 'n']

/-- A coordinate line `<k1>: <v1>, <k2>: <v2>` built from raw pieces. -/
def kvLine (k1 v1 k2 v2 : List Char) : String :=
  String.mk (k1 ++ ':' :: ' ' :: (v1 ++ ',' :: ' ' :: (k2 ++ ':' :: ' ' :: v2)))

/-- The coordinate line `lat: <v1>, lon: <v2>` of the spec grammar. -/
def latlonLine (v1 v2 : List Char) : String := kvLine latKey v1 lonKey v2

/-- The reordered coordinate line `lon: <v2>, lat: <v1>`. -/
def lonlatLine (v2 v1 : List Char) : String := kvLine lonKey v2 latKey v1

/-- `YYYY-MM-DDTHH:MM:SS`, the canonical ISO-8601 rendering of a
naive datetime. -/
def isoChars (d : PyDate) (t : PyTime) : List Char :=
  dateChars d ++ 'T' :: timeChars t

/-- `YYYY-MM-DD HH:MM:SS`, the output format of `parse_forecast`. -/
def outChars (d : PyDate) (t : PyTime) : List Char :=
  dateChars d ++ ' ' :: timeChars t

/-- Field validity enforced by the `datetime` constructor (a
four-digit ISO year is also at most 9999). -/
def ValidDate (d : PyDate) : Prop :=
  1 ≤ d.year ∧ d.year ≤ 9999 ∧ 1 ≤ d.month ∧ d.month ≤ 12 ∧
    1 ≤ d.day ∧ d.day ≤ daysInMonth d.year d.month

/-- Time-field validity enforced by the `datetime` constructor. -/
def ValidTime (t : PyTime) : Prop :=
  t.hour ≤ 23 ∧ t.minute ≤ 59 ∧ t.second ≤ 59

/-- A forecast period with an integer `temperature` and an ISO-8601
`startTime` with trailing `Z`. -/
def mkPeriod (temp : ℤ) (d : PyDate) (t : PyTime) : Json :=
  .obj [("temperature", .num (temp : ℚ)),
        ("startTime", .str (String.mk (isoChars d t ++ ['Z'])))]

/-- A ForecastPayload whose `properties.periods` is the given list of
periods. -/
def mkPayload (l : List (ℤ × PyDate × PyTime)) : Json :=
  .obj [("properties", .obj [("periods",
    .arr (l.map (fun x => mkPeriod x.1 x.2.1 x.2.2)))])]

/-! ## Helper lemmas -/

theorem dropWhile_eq_self_of_head (p : Char → Bool) (l : List Char)
    (h : ∀ c, l.head? = some c → p c = false) : l.dropWhile p = l := by
  cases l with
  | nil => rfl
  | cons c rest =>
    have hc : p c = false := h c rfl
    simp [List.dropWhile_cons, hc]

theorem pyStrip_eq_self (l : List Char)
    (h1 : ∀ c, l.head? = some c → isPySpace c = false)
    (h2 : ∀ c, l.getLast? = some c → isPySpace c = false) :
    pyStrip l = l := by
  unfold pyStrip
  rw [dropWhile_eq_self_of_head _ _ h1]
  rw [dropWhile_eq_self_of_head _ _ (by simpa using h2)]
  exact l.reverse_reverse

theorem pyStrip_eq_self_of_all (l : List Char)
    (h : ∀ c ∈ l, isPySpace c = false) : pyStrip l = l := by
  apply pyStrip_eq_self
  · intro c hc
    cases l with
    | nil => simp at hc
    | cons a rest =>
      have : a = c := by simpa using hc
      exact this ▸ h a (by simp)
  · intro c hc
    exact h c (List.mem_of_getLast?_eq_some hc)

theorem pySplit2_no_sep (a b : Char) :
    ∀ l : List Char, (∀ c ∈ l, c ≠ a) → pySplit2 a b l = [l] := by
  intro l
  induction l with
  | nil => intro _; rfl
  | cons c rest ih =>
    intro h
    cases rest with
    | nil => rfl
    | cons c2 rest2 =>
      have hc : ¬(c = a ∧ c2 = b) := fun hh => h c (by simp) hh.1
      have hrest := ih (fun d hd => h d (List.mem_cons_of_mem _ hd))
      simp only [pySplit2, if_neg hc, hrest]

theorem pySplit2_append (a b : Char) (y : List Char) :
    ∀ x : List Char, (∀ c ∈ x, c ≠ a) →
      pySplit2 a b (x ++ a :: b :: y) = x :: pySplit2 a b y := by
  intro x
  induction x with
  | nil =>
    intro _
    simp [pySplit2]
  | cons c xs ih =>
    intro h
    have hc : c ≠ a := h c (by simp)
    have hxs : ∀ d ∈ xs, d ≠ a := fun d hd => h d (by simp [hd])
    have inner := ih hxs
    cases xs with
    | nil =>
      have hcc : ¬(c = a ∧ a = b) := fun hh => hc hh.1
      simp only [List.nil_append, List.cons_append, pySplit2, if_neg hcc]
      simp [pySplit2]
    | cons x2 xs2 =>
      have hcc : ¬(c = a ∧ x2 = b) := fun hh => hc hh.1
      simp only [List.cons_append] at inner ⊢
      simp only [pySplit2, if_neg hcc, inner]

theorem pyFloatUnsigned_chars (l : List Char) (q : ℚ)
    (h : pyFloatUnsigned l = some q) :
    l ≠ [] ∧ ∀ c ∈ l, (c.isDigit || c = '.') = true := by
  unfold pyFloatUnsigned at h
  have hsplit := List.takeWhile_append_dropWhile (p := fun c => c.isDigit) (l := l)
  rcases hr : l.dropWhile (fun c => c.isDigit) with _ | ⟨c, r2⟩
  · rw [hr] at h hsplit
    simp only [List.append_nil] at hsplit
    constructor
    · intro hnil
      rw [hnil] at h
      simp at h
    · intro d hd
      rw [← hsplit] at hd
      have := List.mem_takeWhile_imp hd
      simp [this]
  · rw [hr] at h hsplit
    dsimp only at h
    by_cases hcdot : c = '.'
    · subst hcdot
      rw [if_pos rfl] at h
      split at h
      · rename_i hcond
        have hr2 : r2.takeWhile (fun d => d.isDigit) = r2 := by
          have h2 := List.takeWhile_append_dropWhile (p := fun d => d.isDigit) (l := r2)
          rw [hcond.1] at h2
          simpa using h2
        constructor
        · intro hnil
          rw [hnil] at hsplit
          exact absurd hsplit.symm (by simp)
        · intro d hd
          rw [← hsplit] at hd
          rcases List.mem_append.mp hd with hip | htl
          · have := List.mem_takeWhile_imp hip
            simp [this]
          · rcases List.mem_cons.mp htl with hdot | hfp
            · simp [hdot]
            · rw [← hr2] at hfp
              have := List.mem_takeWhile_imp hfp
              simp [this]
      · exact absurd h (by simp)
    · rw [if_neg hcdot] at h
      exact absurd h (by simp)

theorem pyFloatCore_chars (l : List Char) (q : ℚ)
    (h : pyFloatCore l = some q) :
    l ≠ [] ∧ ∀ c ∈ l, goodFloatChar c = true := by
  unfold pyFloatCore at h
  cases l with
  | nil => simp at h
  | cons c r =>
    dsimp only at h
    refine ⟨by simp, ?_⟩
    by_cases h1 : c = '+'
    · rw [if_pos h1] at h
      have := pyFloatUnsigned_chars r q h
      intro d hd
      rcases List.mem_cons.mp hd with hh | hh
      · simp [goodFloatChar, hh, h1]
      · have h2 := this.2 d hh
        rcases (by simpa using h2) with h3 | h3 <;> simp [goodFloatChar, h3]
    · rw [if_neg h1] at h
      by_cases h2 : c = '-'
      · rw [if_pos h2] at h
        rcases ho : pyFloatUnsigned r with _ | q2
        · rw [ho] at h; simp at h
        · have := pyFloatUnsigned_chars r q2 ho
          intro d hd
          rcases List.mem_cons.mp hd with hh | hh
          · simp [goodFloatChar, hh, h2]
          · have h3 := this.2 d hh
            rcases (by simpa using h3) with h4 | h4 <;> simp [goodFloatChar, h4]
      · rw [if_neg h2] at h
        have := pyFloatUnsigned_chars (c :: r) q h
        intro d hd
        have h3 := this.2 d hd
        rcases (by simpa using h3) with h4 | h4 <;> simp [goodFloatChar, h4]

theorem goodFloatChar_props (c : Char) (h : goodFloatChar c = true) :
    c ≠ ',' ∧ c ≠ ':' ∧ isPySpace c = false := by
  simp only [goodFloatChar, Bool.or_eq_true, decide_eq_true_eq] at h
  rcases h with ((hd | hs) | hs) | hs
  · refine ⟨?_, ?_, ?_⟩
    · intro heq; rw [heq] at hd; exact absurd hd (by decide)
    · intro heq; rw [heq] at hd; exact absurd hd (by decide)
    · cases hsp : isPySpace c with
      | false => rfl
      | true =>
        simp only [isPySpace, Bool.or_eq_true, decide_eq_true_eq] at hsp
        rcases hsp with ((((he | he) | he) | he) | he) | he <;>
          (rw [he] at hd; exact absurd hd (by decide))
  · subst hs; exact ⟨by decide, by decide, by decide⟩
  · subst hs; exact ⟨by decide, by decide, by decide⟩
  · subst hs; exact ⟨by decide, by decide, by decide⟩

/-- **C5** (confirmed): the Input Loader reads the email source as a
single trimmed line; for every such line (a string fixed by stripping)
that does not match the email pattern, `read_email` fails with
`ValueError` — in particular for `"not-an-email"`, `"a@b"` and `""` —
while for `"user@example.com"` it succeeds and returns the trimmed
string. -/
theorem c5_read_email_validation :
    (∀ s : String, pyStrip s.data = s.data → is_valid_email s = false →
      read_email s = .error .valueError)
    ∧ read_email "not-an-email" = .error .valueError
    ∧ read_email "a@b" = .error .valueError
    ∧ read_email "" = .error .valueError
    ∧ read_email "user@example.com" = .ok "user@example.com" := by
  refine ⟨?_, by rfl, by rfl, by rfl, by rfl⟩
  intro s hfix hinvalid
  unfold read_email
  rw [hfix]
  have hmk : String.mk s.data = s := rfl
  rw [hmk]
  simp [hinvalid]

/-- Witness for C5: the universal part applied to the concrete
non-matching line `"plainly wrong"`. -/
theorem c5_witness : read_email "plainly wrong" = .error .valueError :=
  c5_read_email_validation.1 "plainly wrong" rfl rfl

theorem jlookup_none_of_any_false (k : String) :
    ∀ entries : List (String × Json),
      entries.any (fun e => e.1 = k) = false → jlookup k entries = none := by
  intro entries
  induction entries with
  | nil => intro _; rfl
  | cons e rest ih =>
    intro h
    simp only [List.any_cons, Bool.or_eq_false_iff] at h
    have he : ¬(e.1 = k) := by simpa using h.1
    simp only [jlookup, if_neg he]
    exact ih h.2

theorem jlookup_map_set (k : String) (v : Json) :
    ∀ entries : List (String × Json),
      entries.any (fun e => e.1 = k) = true →
      jlookup k (entries.map (fun e => if e.1 = k then (k, v) else e)) =
        some v := by
  intro entries
  induction entries with
  | nil => intro h; simp at h
  | cons e rest ih =>
    intro h
    by_cases he : e.1 = k
    · simp [List.map_cons, if_pos he, jlookup]
    · simp only [List.any_cons, Bool.or_eq_true] at h
      rcases h with h | h
      · exact absurd (by simpa using h) he
      · simp only [List.map_cons, if_neg he, jlookup, if_neg he]
        exact ih h

theorem jlookup_append_single (k : String) (v : Json) :
    ∀ entries : List (String × Json),
      entries.any (fun e => e.1 = k) = false →
      jlookup k (entries ++ [(k, v)]) = some v := by
  intro entries
  induction entries with
  | nil => simp [jlookup]
  | cons e rest ih =>
    intro h
    simp only [List.any_cons, Bool.or_eq_false_iff] at h
    have he : ¬(e.1 = k) := by simpa using h.1
    simp only [List.cons_append, jlookup, if_neg he]
    exact ih h.2

theorem jlookup_dictSet_same (entries : List (String × Json)) (k : String)
    (v : Json) : jlookup k (dictSet entries k v) = some v := by
  unfold dictSet
  by_cases h : entries.any (fun e => e.1 = k) = true
  · rw [if_pos h]
    exact jlookup_map_set k v entries h
  · rw [if_neg h]
    have h2 : entries.any (fun e => e.1 = k) = false := by
      cases hb : entries.any (fun e => e.1 = k) with
      | false => rfl
      | true => exact absurd hb h
    exact jlookup_append_single k v entries h2

theorem jlookup_map_set_other (k k2 : String) (v : Json) (hne : k2 ≠ k) :
    ∀ entries : List (String × Json),
      jlookup k2 (entries.map (fun e => if e.1 = k then (k, v) else e)) =
        jlookup k2 entries := by
  intro entries
  induction entries with
  | nil => rfl
  | cons e rest ih =>
    by_cases he : e.1 = k
    · have h2 : ¬((k, v).1 = k2) := by simpa using fun hh => hne hh.symm
      have h3 : ¬(e.1 = k2) := by rw [he]; simpa using fun hh => hne hh.symm
      simp only [List.map_cons, if_pos he, jlookup, if_neg h2, if_neg h3]
      exact ih
    · simp only [List.map_cons, if_neg he, jlookup]
      by_cases h3 : e.1 = k2
      · simp [if_pos h3]
      · simp only [if_neg h3]
        exact ih

theorem jlookup_append_single_other (k k2 : String) (v : Json)
    (hne : k2 ≠ k) :
    ∀ entries : List (String × Json),
      jlookup k2 (entries ++ [(k, v)]) = jlookup k2 entries := by
  intro entries
  induction entries with
  | nil =>
    have h2 : ¬((k, v).1 = k2) := by simpa using fun hh => hne hh.symm
    simp [jlookup, if_neg h2]
  | cons e rest ih =>
    simp only [List.cons_append, jlookup]
    by_cases h3 : e.1 = k2
    · simp [if_pos h3]
    · simp only [if_neg h3]
      exact ih

theorem jlookup_dictSet_other (entries : List (String × Json))
    (k k2 : String) (v : Json) (hne : k2 ≠ k) :
    jlookup k2 (dictSet entries k v) = jlookup k2 entries := by
  unfold dictSet
  by_cases h : entries.any (fun e => e.1 = k) = true
  · rw [if_pos h]
    exact jlookup_map_set_other k k2 v hne entries
  · rw [if_neg h]
    exact jlookup_append_single_other k k2 v hne entries

theorem dictSet_keys (entries : List (String × Json)) (k : String)
    (v : Json) :
    (dictSet entries k v).map Prod.fst =
      (if entries.any (fun e => e.1 = k) then entries.map Prod.fst
       else entries.map Prod.fst ++ [k]) := by
  unfold dictSet
  by_cases h : entries.any (fun e => e.1 = k) = true
  · rw [if_pos h, if_pos h, List.map_map]
    apply List.map_congr_left
    intro e _
    by_cases he : e.1 = k
    · simp [if_pos he, he]
    · simp [if_neg he]
  · rw [if_neg h, if_neg h]
    simp

/-- **C9** (confirmed): for every JSON body decoded from the
station-lookup response (with a success status), `fetch_metadata`
returns that mapping with `email` set to the Contact string: the
`email` key maps to the Contact (overwriting any upstream `email`
value), every other key keeps its value, and the key sequence is
unchanged apart from `email` being appended when absent. -/
theorem c9_fetch_metadata_email :
    ∀ (status : ℕ) (entries : List (String × Json)) (email : String),
      status < 400 →
      fetch_metadata status (.obj entries) email =
        .ok (.obj (dictSet entries "email" (.str email)))
      ∧ jlookup "email" (dictSet entries "email" (.str email)) =
          some (.str email)
      ∧ (∀ k, k ≠ "email" →
          jlookup k (dictSet entries "email" (.str email)) =
            jlookup k entries)
      ∧ (dictSet entries "email" (.str email)).map Prod.fst =
          (if entries.any (fun e => e.1 = "email") then
            entries.map Prod.fst
           else entries.map Prod.fst ++ ["email"]) := by
  intro status entries email hst
  refine ⟨?_, jlookup_dictSet_same entries "email" (.str email), ?_,
    dictSet_keys entries "email" (.str email)⟩
  · unfold fetch_metadata raise_for_status
    rw [if_neg (by omega)]
    rfl
  · intro k hk
    exact jlookup_dictSet_other entries "email" k (.str email) hk

/-- Witness for C9: a station body that already carries an upstream
`email` field gets it overwritten by the Contact. -/
theorem c9_witness :
    fetch_metadata 200 (.obj [("properties", .null), ("email", .str "old")])
        "user@example.com" =
      .ok (.obj (dictSet [("properties", .null), ("email", .str "old")]
        "email" (.str "user@example.com"))) :=
  (c9_fetch_metadata_email 200 [("properties", .null), ("email", .str "old")]
    "user@example.com" (by omega)).1

theorem any_false_of_jlookup_none (k : String) :
    ∀ entries : List (String × Json),
      jlookup k entries = none → entries.any (fun e => e.1 = k) = false := by
  intro entries
  induction entries with
  | nil => intro _; rfl
  | cons e rest ih =>
    intro h
    by_cases he : e.1 = k
    · rw [jlookup, if_pos he] at h
      exact absurd h (by simp)
    · rw [jlookup, if_neg he] at h
      simp only [List.any_cons, Bool.or_eq_false_iff]
      exact ⟨by simpa using he, ih h⟩

theorem any_true_of_jlookup_some (k : String) :
    ∀ (entries : List (String × Json)) (v : Json),
      jlookup k entries = some v → entries.any (fun e => e.1 = k) = true := by
  intro entries
  induction entries with
  | nil => intro v h; exact absurd h (by simp [jlookup])
  | cons e rest ih =>
    intro v h
    by_cases he : e.1 = k
    · simp [List.any_cons, he]
    · rw [jlookup, if_neg he] at h
      simp only [List.any_cons, Bool.or_eq_true]
      exact Or.inr (ih v h)

theorem fetch_forecast_missing_properties
    (resp : String → ℕ × Json) (entries : List (String × Json))
    (h : jlookup "properties" entries = none) :
    fetch_forecast resp (.obj entries) =
      ([], .error (.keyError "API response structure unexpected.")) := by
  unfold fetch_forecast
  dsimp only
  rw [h]

theorem fetch_forecast_missing_forecast
    (resp : String → ℕ × Json) (entries pentries : List (String × Json))
    (h1 : jlookup "properties" entries = some (.obj pentries))
    (h2 : jlookup "forecast" pentries = none) :
    fetch_forecast resp (.obj entries) =
      ([], .error (.keyError "API response structure unexpected.")) := by
  unfold fetch_forecast
  dsimp only
  rw [h1]
  have hany := any_false_of_jlookup_none "forecast" pentries h2
  simp [pyContains, hany]

theorem fetch_forecast_fetches
    (resp : String → ℕ × Json) (entries pentries : List (String × Json))
    (url : String) (e : Json)
    (h1 : jlookup "properties" entries = some (.obj pentries))
    (h2 : jlookup "forecast" pentries = some (.str url))
    (h3 : jlookup "email" entries = some e) :
    fetch_forecast resp (.obj entries) =
      ([.httpGet url],
        (raise_for_status (resp url).1).map (fun _ => (resp url).2)) := by
  unfold fetch_forecast
  dsimp only
  rw [h1]
  have hany := any_true_of_jlookup_some "forecast" pentries _ h2
  simp [pyContains, hany, getItem, h2, h3]

/-- **C6** (confirmed): for every StationMetadata mapping with
`properties` missing, or with `properties` present but lacking
`forecast`, `fetch_forecast` fails with the schema error
`KeyError("API response structure unexpected.")`; when both keys are
present (StationMetadata produced by the resolver also carries the
Contact under `email`, see C9), it does not raise the schema error and
issues the GET to the forecast URL. -/
theorem c6_fetch_forecast_schema :
    ∀ (resp : String → ℕ × Json) (entries : List (String × Json)),
      (jlookup "properties" entries = none →
        fetch_forecast resp (.obj entries) =
          ([], .error (.keyError "API response structure unexpected.")))
      ∧ (∀ pentries, jlookup "properties" entries = some (.obj pentries) →
          jlookup "forecast" pentries = none →
          fetch_forecast resp (.obj entries) =
            ([], .error (.keyError "API response structure unexpected.")))
      ∧ (∀ pentries url e,
          jlookup "properties" entries = some (.obj pentries) →
          jlookup "forecast" pentries = some (.str url) →
          jlookup "email" entries = some e →
          (fetch_forecast resp (.obj entries)).1 = [.httpGet url]
          ∧ (fetch_forecast resp (.obj entries)).2 ≠
              .error (.keyError "API response structure unexpected.")) := by
  intro resp entries
  refine ⟨fun h => fetch_forecast_missing_properties resp entries h,
    fun pentries h1 h2 =>
      fetch_forecast_missing_forecast resp entries pentries h1 h2,
    ?_⟩
  intro pentries url e h1 h2 h3
  rw [fetch_forecast_fetches resp entries pentries url e h1 h2 h3]
  refine ⟨rfl, ?_⟩
  unfold raise_for_status
  by_cases hs : 400 ≤ (resp url).1
  · rw [if_pos hs]
    simp [Except.map]
  · rw [if_neg hs]
    simp [Except.map]

/-- Witness for C6: a well-formed StationMetadata leads to a GET of
the forecast URL and no schema error. -/
theorem c6_witness :
    (fetch_forecast (fun _ => (200, Json.null))
      (.obj [("properties", .obj [("forecast", .str "https://example/forecast")]),
             ("email", .str "demo@example.org")])).1 =
        [.httpGet "https://example/forecast"]
    ∧ (fetch_forecast (fun _ => (200, Json.null))
      (.obj [("properties", .obj [("forecast", .str "https://example/forecast")]),
             ("email", .str "demo@example.org")])).2 ≠
        .error (.keyError "API response structure unexpected.") :=
  (c6_fetch_forecast_schema (fun _ => (200, Json.null))
      [("properties", .obj [("forecast", .str "https://example/forecast")]),
       ("email", .str "demo@example.org")]).2.2
    [("forecast", .str "https://example/forecast")]
    "https://example/forecast" (.str "demo@example.org") rfl rfl rfl

/-- **C10** (confirmed): on a schema failure (`properties` missing, or
`properties` lacking `forecast`) `fetch_forecast` issues no outbound
HTTP request: its effect trace is empty. -/
theorem c10_fetch_forecast_no_request_on_schema_failure :
    ∀ (resp : String → ℕ × Json) (entries : List (String × Json)),
      (jlookup "properties" entries = none ∨
        ∃ pentries, jlookup "properties" entries = some (.obj pentries) ∧
          jlookup "forecast" pentries = none) →
      (fetch_forecast resp (.obj entries)).1 = [] := by
  intro resp entries h
  rcases h with h | ⟨pentries, h1, h2⟩
  · rw [fetch_forecast_missing_properties resp entries h]
  · rw [fetch_forecast_missing_forecast resp entries pentries h1 h2]

/-- Witness for C10: metadata without `properties` triggers no
request. -/
theorem c10_witness :
    (fetch_forecast (fun _ => (200, Json.null))
      (.obj [("note", Json.null)])).1 = [] :=
  c10_fetch_forecast_no_request_on_schema_failure
    (fun _ => (200, Json.null)) [("note", Json.null)] (Or.inl rfl)

theorem sessionRequestAux_length (forcelist : List ℕ) (resp : ℕ → ℕ) :
    ∀ (retriesLeft i : ℕ),
      (sessionRequestAux forcelist resp retriesLeft i).1.length ≤
        retriesLeft + 1 := by
  intro rl
  induction rl with
  | zero =>
    intro i
    unfold sessionRequestAux
    by_cases hmem : resp i ∈ forcelist
    · rw [if_pos hmem]; simp
    · rw [if_neg hmem]; simp
  | succ k ih =>
    intro i
    unfold sessionRequestAux
    by_cases hmem : resp i ∈ forcelist
    · rw [if_pos hmem]
      dsimp only
      have hk := ih (i + 1)
      simp only [List.length_cons]
      omega
    · rw [if_neg hmem]; simp

theorem sessionRequestAux_ne_nil (forcelist : List ℕ) (resp : ℕ → ℕ)
    (rl i : ℕ) : (sessionRequestAux forcelist resp rl i).1 ≠ [] := by
  unfold sessionRequestAux
  by_cases hmem : resp i ∈ forcelist
  · rw [if_pos hmem]
    cases rl <;> simp
  · rw [if_neg hmem]; simp

theorem sessionRequestAux_dropLast_mem (forcelist : List ℕ)
    (resp : ℕ → ℕ) :
    ∀ (retriesLeft i s : ℕ),
      s ∈ ((sessionRequestAux forcelist resp retriesLeft i).1).dropLast →
      s ∈ forcelist := by
  intro rl
  induction rl with
  | zero =>
    intro i s hs
    unfold sessionRequestAux at hs
    by_cases hmem : resp i ∈ forcelist
    · rw [if_pos hmem] at hs
      dsimp only at hs
      simp at hs
    · rw [if_neg hmem] at hs; simp at hs
  | succ k ih =>
    intro i s hs
    unfold sessionRequestAux at hs
    by_cases hmem : resp i ∈ forcelist
    · rw [if_pos hmem] at hs
      dsimp only at hs
      rw [List.dropLast_cons_of_ne_nil
        (sessionRequestAux_ne_nil forcelist resp k (i + 1))] at hs
      rcases List.mem_cons.mp hs with h | h
      · exact h ▸ hmem
      · exact ih (i + 1) s h
    · rw [if_neg hmem] at hs; simp at hs

/-- Counterexample for C8 as stated: with every response being 500,
the session issues 4 requests (the initial attempt plus the 3
configured retries) before raising, not at most 3. -/
theorem c8_counterexample :
    (sessionRequest get_session_with_retries (fun _ => 500)).1 =
      [500, 500, 500, 500]
    ∧ (sessionRequest get_session_with_retries (fun _ => 500)).2 =
        .error .maxRetryError := by
  constructor <;> rfl

/-- **C8** (corrected): the session is configured with `total = 3`
retries, backoff factor 0.3 and forcelist `[500, 502, 503, 504]`; it
makes at most 3 retries after the initial attempt (hence at most 4
requests in total — not at most 3 attempts as claimed); every request
that is followed by another (i.e. every retried status) had a status
in the forcelist; any status outside the forcelist is returned after a
single attempt, and `raise_for_status` then raises immediately for
error statuses; the backoff before retry k+1 is `0.3 * 2 ^ k`
seconds. -/
theorem c8_retry_policy :
    get_session_with_retries =
      { total := 3, backoff_factor := 3 / 10,
        status_forcelist := [500, 502, 503, 504] }
    ∧ (∀ resp : ℕ → ℕ,
        (sessionRequest get_session_with_retries resp).1.length ≤ 4)
    ∧ (∀ (resp : ℕ → ℕ) (s : ℕ),
        s ∈ ((sessionRequest get_session_with_retries resp).1).dropLast →
        s ∈ [500, 502, 503, 504])
    ∧ (∀ resp : ℕ → ℕ, resp 0 ∉ [500, 502, 503, 504] →
        sessionRequest get_session_with_retries resp =
          ([resp 0], .ok (resp 0))
        ∧ (400 ≤ resp 0 →
            raise_for_status (resp 0) = .error .httpError))
    ∧ (∀ k : ℕ, get_backoff_time get_session_with_retries (k + 1) =
        3 / 10 * 2 ^ k) := by
  refine ⟨rfl, ?_, ?_, ?_, ?_⟩
  · intro resp
    exact sessionRequestAux_length [500, 502, 503, 504] resp 3 0
  · intro resp s hs
    exact sessionRequestAux_dropLast_mem [500, 502, 503, 504] resp 3 0 s hs
  · intro resp h
    constructor
    · show sessionRequestAux [500, 502, 503, 504] resp 3 0 = _
      unfold sessionRequestAux
      rw [if_neg h]
    · intro h400
      unfold raise_for_status
      rw [if_pos h400]
  · intro k
    unfold get_backoff_time get_session_with_retries
    simp

/-- Witness for C8: a 404 response is returned after exactly one
attempt and `raise_for_status` raises. -/
theorem c8_witness :
    sessionRequest get_session_with_retries (fun _ => 404) =
      ([404], .ok 404)
    ∧ raise_for_status 404 = .error .httpError := by
  have h := c8_retry_policy.2.2.2.1 (fun _ => 404) (by decide)
  exact ⟨h.1, h.2 (by decide)⟩

/-- Counterexample for C3 as stated: on an empty series
`plot_temperature` fails with `IndexError` (raised by `times[0]` in
the title), not with a validation `ValueError`; the claimed error
class is wrong (though indeed no file is written). -/
theorem c3_counterexample :
    (plot_temperature (.obj [("temperatures", .arr []), ("times", .arr [])])
        0 0 (some "out.png") "ts").2 = .error .indexError
    ∧ (plot_temperature (.obj [("temperatures", .arr []), ("times", .arr [])])
        0 0 (some "out.png") "ts").2 ≠ .error .valueError
    ∧ Effect.savefig "out.png" ∉
        (plot_temperature (.obj [("temperatures", .arr []), ("times", .arr [])])
          0 0 (some "out.png") "ts").1 := by
  refine ⟨rfl, ?_, ?_⟩
  · intro h
    rw [show (plot_temperature
        (.obj [("temperatures", .arr []), ("times", .arr [])])
        0 0 (some "out.png") "ts").2 = .error .indexError from rfl] at h
    simp at h
  · intro h
    rw [show (plot_temperature
        (.obj [("temperatures", .arr []), ("times", .arr [])])
        0 0 (some "out.png") "ts").1 = [.mkdirParent "out.png"] from rfl] at h
    simp at h

/-- **C3** (corrected): for every empty ForecastSeries,
`plot_temperature` creates the parent directory, then fails with
`IndexError` (the unguarded `times[0]` in the subtitle) rather than a
validation error, and writes no image file: the only recorded effect
is the directory creation, with no `savefig`. -/
theorem c3_empty_series_no_file :
    ∀ (latitude longitude : ℚ) (p now : String),
      plot_temperature (.obj [("temperatures", .arr []), ("times", .arr [])])
          latitude longitude (some p) now =
        ([.mkdirParent p], .error .indexError)
      ∧ plot_temperature (.obj [("temperatures", .arr []), ("times", .arr [])])
          latitude longitude none now =
        ([.mkdirParent ("forecast_plot_" ++ now ++ ".png")],
          .error .indexError) := by
  intro latitude longitude p now
  exact ⟨rfl, rfl⟩


theorem except_bind_error {α β : Type} (e : PyError)
    (f : α → Except PyError β) :
    (Except.error e >>= f) = Except.error e := rfl

theorem except_bind_ok {α β : Type} (a : α) (f : α → Except PyError β) :
    (Except.ok a >>= f) = f a := rfl

theorem except_map_ok {α β : Type} (a : α) (f : α → β) :
    (f <$> (Except.ok a : Except PyError α)) = Except.ok (f a) := rfl

theorem exceptMap_ok_length {α : Type} (f : Json → Except PyError α) :
    ∀ (ps : List Json) (l : List α),
      exceptMap f ps = .ok l → l.length = ps.length := by
  intro ps
  induction ps with
  | nil =>
    intro l h
    simp only [exceptMap] at h
    cases h
    rfl
  | cons p ps ih =>
    intro l h
    unfold exceptMap at h
    rcases hf : f p with e | a
    · rw [hf, except_bind_error] at h
      exact Except.noConfusion h
    · rw [hf, except_bind_ok] at h
      rcases hr : exceptMap f ps with e2 | rest
      · rw [hr, except_bind_error] at h
        exact Except.noConfusion h
      · rw [hr, except_bind_ok] at h
        cases h
        simp [ih rest hr]

/-- Counterexample for C4 as stated: a payload with an empty
`properties.periods` list is accepted by `parse_forecast` and yields
two sequences of length 0, violating `len(times) == len(temperatures)`
`> 0`. -/
theorem c4_counterexample :
    parse_forecast (.obj [("properties", .obj [("periods", .arr [])])]) =
      .ok (.obj [("temperatures", .arr []), ("times", .arr [])]) := rfl

/-- **C4** (corrected): every ForecastSeries accepted by
`parse_forecast` has `temperatures` and `times` of equal length, but
that length is not necessarily positive: the empty periods list is
accepted and produces two empty sequences. -/
theorem c4_series_equal_lengths :
    ∀ (forecast_data r : Json), parse_forecast forecast_data = .ok r →
      ∃ temps times : List Json,
        r = .obj [("temperatures", .arr temps), ("times", .arr times)] ∧
        temps.length = times.length := by
  intro fd r h
  unfold parse_forecast at h
  rcases h1 : getItem fd "properties" with e | props
  · rw [h1, except_bind_error] at h
    exact Except.noConfusion h
  · rw [h1, except_bind_ok] at h
    rcases h2 : getItem props "periods" with e | periods
    · rw [h2, except_bind_error] at h
      exact Except.noConfusion h
    · rw [h2, except_bind_ok] at h
      rcases hA : asArr periods with e | ps
      · rw [hA, except_bind_error] at h
        exact Except.noConfusion h
      · rw [hA, except_bind_ok] at h
        rcases h3 : exceptMap (fun p => getItem p "temperature") ps
            with e | temps
        · rw [h3, except_bind_error] at h
          exact Except.noConfusion h
        · rw [h3, except_bind_ok] at h
          rcases h4 : exceptMap (fun p => do
              let st ← getItem p "startTime"
              formatStartTime st) ps with e | times
          · rw [h4, except_bind_error] at h
            exact Except.noConfusion h
          · rw [h4, except_bind_ok] at h
            cases h
            refine ⟨temps, times.map Json.str, rfl, ?_⟩
            rw [exceptMap_ok_length _ ps temps h3]
            simp [exceptMap_ok_length _ ps times h4]

/-- Witness for C4: the equal-length conclusion at a concrete
one-period payload. -/
theorem c4_witness :
    ∃ temps times : List Json,
      (Json.obj [("temperatures", .arr [.num 60]),
                 ("times", .arr [.str "2024-06-01 12:00:00"])]) =
        .obj [("temperatures", .arr temps), ("times", .arr times)] ∧
      temps.length = times.length :=
  c4_series_equal_lengths
    (.obj [("properties", .obj [("periods", .arr [
      .obj [("temperature", .num 60),
            ("startTime", .str "2024-06-01T12:00:00Z")]])])])
    (.obj [("temperatures", .arr [.num 60]),
           ("times", .arr [.str "2024-06-01 12:00:00"])])
    rfl

theorem daysInMonth_le (y m : ℕ) : daysInMonth y m ≤ 31 := by
  unfold daysInMonth
  split
  · split <;> omega
  · split <;> omega

theorem parseDigit_digitChar_lt :
    ∀ n : ℕ, n < 10 → parseDigit (digitChar n) = some n := by decide

theorem digitChar_ne_Z : ∀ n : ℕ, n < 10 → digitChar n ≠ 'Z' := by decide

theorem parse2_z2 (n : ℕ) (h : n < 100) (r : List Char) :
    parse2 (z2 n ++ r) = some (n, r) := by
  have h1 : parseDigit (digitChar (n / 10)) = some (n / 10) :=
    parseDigit_digitChar_lt (n / 10) (by omega)
  have h2 : parseDigit (digitChar (n % 10)) = some (n % 10) :=
    parseDigit_digitChar_lt (n % 10) (by omega)
  show parse2 (digitChar (n / 10) :: digitChar (n % 10) :: r) = some (n, r)
  unfold parse2
  dsimp only
  rw [h1, h2]
  have hval : 10 * (n / 10) + n % 10 = n := by omega
  simp [hval]

theorem parse2_z2_nil (n : ℕ) (h : n < 100) :
    parse2 (z2 n) = some (n, []) := by
  have := parse2_z2 n h []
  simpa using this

theorem parse4_z4 (n : ℕ) (h : n < 10000) (r : List Char) :
    parse4 (z4 n ++ r) = some (n, r) := by
  have h1 : parseDigit (digitChar (n / 1000)) = some (n / 1000) :=
    parseDigit_digitChar_lt _ (by omega)
  have h2 : parseDigit (digitChar (n / 100 % 10)) = some (n / 100 % 10) :=
    parseDigit_digitChar_lt _ (by omega)
  have h3 : parseDigit (digitChar (n / 10 % 10)) = some (n / 10 % 10) :=
    parseDigit_digitChar_lt _ (by omega)
  have h4 : parseDigit (digitChar (n % 10)) = some (n % 10) :=
    parseDigit_digitChar_lt _ (by omega)
  show parse4 (digitChar (n / 1000) :: digitChar (n / 100 % 10) ::
    digitChar (n / 10 % 10) :: digitChar (n % 10) :: r) = some (n, r)
  unfold parse4
  dsimp only
  rw [h1, h2, h3, h4]
  have hval : 1000 * (n / 1000) + 100 * (n / 100 % 10) +
      10 * (n / 10 % 10) + n % 10 = n := by omega
  simp [hval]

theorem parseDateChars_roundtrip (d : PyDate) (hd : ValidDate d)
    (r : List Char) : parseDateChars (dateChars d ++ r) = some (d, r) := by
  obtain ⟨h1, h2, h3, h4, h5, h6⟩ := hd
  unfold parseDateChars
  have e1 : dateChars d ++ r =
      z4 d.year ++ '-' :: (z2 d.month ++ '-' :: (z2 d.day ++ r)) := by
    simp [dateChars]
  rw [e1, parse4_z4 d.year (by omega)]
  dsimp only
  rw [if_pos rfl, parse2_z2 d.month (by omega)]
  dsimp only
  rw [if_pos rfl, parse2_z2 d.day
    (by have := daysInMonth_le d.year d.month; omega)]
  dsimp only
  rw [if_pos (by omega)]

theorem parseTimeChars_roundtrip (t : PyTime) (ht : ValidTime t) :
    parseTimeChars (timeChars t) = some t := by
  obtain ⟨g1, g2, g3⟩ := ht
  unfold parseTimeChars
  have e1 : timeChars t =
      z2 t.hour ++ ':' :: (z2 t.minute ++ ':' :: z2 t.second) := by
    simp [timeChars]
  rw [e1, parse2_z2 t.hour (by omega)]
  dsimp only
  rw [if_pos rfl, parse2_z2 t.minute (by omega)]
  dsimp only
  rw [if_pos rfl, parse2_z2_nil t.second (by omega)]
  dsimp only
  rw [if_pos rfl]
  unfold mkTimeChecked
  rw [if_pos (by omega)]

theorem fromisoformat_iso (d : PyDate) (t : PyTime) (hd : ValidDate d)
    (ht : ValidTime t) :
    fromisoformat (String.mk (isoChars d t)) = some ⟨d, t⟩ := by
  unfold fromisoformat
  show (match parseDateChars (isoChars d t) with
    | none => none
    | some (d, rest) =>
      match rest with
      | [] => some (⟨d, ⟨0, 0, 0⟩⟩ : PyDateTime)
      | _ :: r =>
        match parseTimeChars r with
        | none => none
        | some t => some ⟨d, t⟩) = some ⟨d, t⟩
  unfold isoChars
  rw [parseDateChars_roundtrip d hd]
  dsimp only
  rw [parseTimeChars_roundtrip t ht]

theorem z2_noZ (n : ℕ) (h : n < 100) : ∀ c ∈ z2 n, c ≠ 'Z' := by
  intro c hc
  rcases (by simpa [z2] using hc : c = digitChar (n / 10) ∨
      c = digitChar (n % 10)) with h1 | h1 <;> rw [h1]
  · exact digitChar_ne_Z _ (by omega)
  · exact digitChar_ne_Z _ (by omega)

theorem z4_noZ (n : ℕ) (h : n < 10000) : ∀ c ∈ z4 n, c ≠ 'Z' := by
  intro c hc
  rcases (by simpa [z4] using hc : c = digitChar (n / 1000) ∨
      c = digitChar (n / 100 % 10) ∨ c = digitChar (n / 10 % 10) ∨
      c = digitChar (n % 10)) with h1 | h1 | h1 | h1 <;> rw [h1]
  · exact digitChar_ne_Z _ (by omega)
  · exact digitChar_ne_Z _ (by omega)
  · exact digitChar_ne_Z _ (by omega)
  · exact digitChar_ne_Z _ (by omega)

theorem isoChars_noZ (d : PyDate) (t : PyTime) (hd : ValidDate d)
    (ht : ValidTime t) : ∀ c ∈ isoChars d t, c ≠ 'Z' := by
  obtain ⟨h1, h2, h3, h4, h5, h6⟩ := hd
  obtain ⟨g1, g2, g3⟩ := ht
  intro c hc
  unfold isoChars dateChars timeChars at hc
  rcases List.mem_append.mp hc with hc | hc
  · rcases List.mem_append.mp hc with hc | hc
    · exact z4_noZ d.year (by omega) c hc
    · rcases List.mem_cons.mp hc with hc | hc
      · rw [hc]; decide
      · rcases List.mem_append.mp hc with hc | hc
        · exact z2_noZ d.month (by omega) c hc
        · rcases List.mem_cons.mp hc with hc | hc
          · rw [hc]; decide
          · exact z2_noZ d.day
              (by have := daysInMonth_le d.year d.month; omega) c hc
  · rcases List.mem_cons.mp hc with hc | hc
    · rw [hc]; decide
    · rcases List.mem_append.mp hc with hc | hc
      · exact z2_noZ t.hour (by omega) c hc
      · rcases List.mem_cons.mp hc with hc | hc
        · rw [hc]; decide
        · rcases List.mem_append.mp hc with hc | hc
          · exact z2_noZ t.minute (by omega) c hc
          · rcases List.mem_cons.mp hc with hc | hc
            · rw [hc]; decide
            · exact z2_noZ t.second (by omega) c hc

theorem stripZ_append_Z (l : List Char) (h : ∀ c ∈ l, c ≠ 'Z') :
    stripZ (String.mk (l ++ ['Z'])) = String.mk l := by
  unfold stripZ
  congr 1
  show (l ++ ['Z']).filter (fun c => c ≠ 'Z') = l
  rw [List.filter_append]
  have hl : l.filter (fun c => (c ≠ 'Z' : Bool)) = l :=
    List.filter_eq_self.mpr (fun a ha => by simpa using h a ha)
  rw [hl]
  simp

theorem formatStartTime_iso (d : PyDate) (t : PyTime) (hd : ValidDate d)
    (ht : ValidTime t) :
    formatStartTime (.str (String.mk (isoChars d t ++ ['Z']))) =
      .ok (String.mk (outChars d t)) := by
  unfold formatStartTime
  dsimp only
  rw [stripZ_append_Z _ (isoChars_noZ d t hd ht)]
  rw [fromisoformat_iso d t hd ht]
  rfl

theorem exceptMap_map {α β : Type} (f : Json → Except PyError α)
    (g : β → Json) (h : β → α) :
    ∀ l : List β, (∀ x ∈ l, f (g x) = .ok (h x)) →
      exceptMap f (l.map g) = .ok (l.map h) := by
  intro l
  induction l with
  | nil => intro _; rfl
  | cons x xs ih =>
    intro hall
    simp only [List.map_cons]
    unfold exceptMap
    rw [hall x (by simp), except_bind_ok,
      ih (fun y hy => hall y (by simp [hy])), except_bind_ok]

/-- **C1** (confirmed): for every ForecastPayload whose
`properties.periods` is a list of N periods, each with an integer
`temperature` and an ISO-8601 `startTime` of the canonical form
`YYYY-MM-DDTHH:MM:SSZ` (a valid datetime rendered with trailing `Z`),
`parse_forecast` returns the dict with `temperatures` and `times`,
where the i-th temperature is the i-th period's temperature unchanged
and the i-th time is the i-th startTime with the `Z` stripped,
reformatted as `YYYY-MM-DD HH:MM:SS` — so both sequences are the
element-wise maps of the input list, in input order, hence of length
N with no sorting or deduplication.  In particular
`"2024-06-01T12:00:00Z"` yields `"2024-06-01 12:00:00"`. -/
theorem c1_parse_forecast :
    (∀ l : List (ℤ × PyDate × PyTime),
      (∀ x ∈ l, ValidDate x.2.1 ∧ ValidTime x.2.2) →
      parse_forecast (mkPayload l) =
        .ok (.obj [("temperatures",
            .arr (l.map (fun x => .num (x.1 : ℚ)))),
          ("times", .arr (l.map (fun x =>
            .str (String.mk (outChars x.2.1 x.2.2)))))]))
    ∧ formatStartTime (.str "2024-06-01T12:00:00Z") =
        .ok "2024-06-01 12:00:00" := by
  constructor
  · intro l hvalid
    unfold parse_forecast
    have h1 : getItem (mkPayload l) "properties" =
        .ok (.obj [("periods",
          .arr (l.map (fun x => mkPeriod x.1 x.2.1 x.2.2)))]) := rfl
    have h2 : getItem (Json.obj [("periods",
          .arr (l.map (fun x => mkPeriod x.1 x.2.1 x.2.2)))]) "periods" =
        .ok (.arr (l.map (fun x => mkPeriod x.1 x.2.1 x.2.2))) := rfl
    have h3 : asArr (.arr (l.map (fun x => mkPeriod x.1 x.2.1 x.2.2))) =
        .ok (l.map (fun x => mkPeriod x.1 x.2.1 x.2.2)) := rfl
    rw [h1, except_bind_ok, h2, except_bind_ok, h3, except_bind_ok]
    have h4 : exceptMap (fun p => getItem p "temperature")
        (l.map (fun x => mkPeriod x.1 x.2.1 x.2.2)) =
        .ok (l.map (fun x => Json.num (x.1 : ℚ))) :=
      exceptMap_map _ _ _ l (fun x _ => rfl)
    rw [h4, except_bind_ok]
    have h5 : exceptMap (fun p => do
          let st ← getItem p "startTime"
          formatStartTime st)
        (l.map (fun x => mkPeriod x.1 x.2.1 x.2.2)) =
        .ok (l.map (fun x => String.mk (outChars x.2.1 x.2.2))) := by
      apply exceptMap_map
      intro x hx
      show (getItem (mkPeriod x.1 x.2.1 x.2.2) "startTime" >>=
        formatStartTime) = _
      rw [show getItem (mkPeriod x.1 x.2.1 x.2.2) "startTime" =
        .ok (.str (String.mk (isoChars x.2.1 x.2.2 ++ ['Z']))) from rfl,
        except_bind_ok]
      exact formatStartTime_iso _ _ (hvalid x hx).1 (hvalid x hx).2
    rw [h5, except_bind_ok]
    simp only [List.map_map]
    rfl
  · rfl

/-- Witness for C1: a one-period payload with temperature 72 and
startTime 2024-06-01T12:00:00Z. -/
theorem c1_witness :
    parse_forecast (mkPayload [(72, ⟨2024, 6, 1⟩, ⟨12, 0, 0⟩)]) =
      .ok (.obj [("temperatures",
          .arr ([((72 : ℤ), (⟨2024, 6, 1⟩ : PyDate), (⟨12, 0, 0⟩ : PyTime))].map
            (fun x => .num (x.1 : ℚ)))),
        ("times", .arr ([((72 : ℤ), (⟨2024, 6, 1⟩ : PyDate),
            (⟨12, 0, 0⟩ : PyTime))].map (fun x =>
          .str (String.mk (outChars x.2.1 x.2.2)))))]) :=
  c1_parse_forecast.1 [(72, ⟨2024, 6, 1⟩, ⟨12, 0, 0⟩)] (by
    intro x hx
    simp only [List.mem_singleton] at hx
    subst hx
    constructor
    · unfold ValidDate
      decide
    · unfold ValidTime
      decide)

theorem head?_append_of_ne_nil {α : Type} (l1 l2 : List α)
    (h : l1 ≠ []) : (l1 ++ l2).head? = l1.head? := by
  cases l1 with
  | nil => exact absurd rfl h
  | cons a t => rfl

theorem getLast?_append_right {α : Type} (l1 l2 : List α) (h : l2 ≠ []) :
    (l1 ++ l2).getLast? = l2.getLast? := by
  rw [List.getLast?_append]
  cases hg : l2.getLast? with
  | some a => rfl
  | none =>
    have h2 := List.getLast?_isSome.mpr h
    rw [hg] at h2
    simp at h2

theorem getLast?_cons_of_ne_nil {α : Type} (a : α) (l : List α)
    (h : l ≠ []) : (a :: l).getLast? = l.getLast? := by
  rw [List.getLast?_cons]
  cases hg : l.getLast? with
  | some b => rfl
  | none =>
    have h2 := List.getLast?_isSome.mpr h
    rw [hg] at h2
    simp at h2

theorem latlonDictStep_eval (acc : List (List Char × ℚ))
    (k s : List Char) (q : ℚ)
    (hk : ∀ c ∈ k, c ≠ ':')
    (hs : ∀ c ∈ s, goodFloatChar c = true)
    (hf : pyFloatCore s = some q) :
    latlonDictStep acc (k ++ ':' :: ' ' :: s) =
      .ok (if acc.any (fun e => e.1 = k) then
        acc.map (fun e => if e.1 = k then (k, q) else e)
      else acc ++ [(k, q)]) := by
  unfold latlonDictStep
  have hsplit : pySplit2 ':' ' ' (k ++ ':' :: ' ' :: s) = [k, s] := by
    rw [pySplit2_append ':' ' ' s k hk]
    rw [pySplit2_no_sep ':' ' ' s
      (fun c hc => (goodFloatChar_props c (hs c hc)).2.1)]
  rw [hsplit]
  have hfloat : pyFloat s = some q := by
    unfold pyFloat
    rw [pyStrip_eq_self_of_all s
      (fun c hc => (goodFloatChar_props c (hs c hc)).2.2)]
    exact hf
  simp only [List.get?_cons_succ, List.get?_cons_zero, List.headD_cons]
  dsimp only [except_bind_ok]
  rw [hfloat]
  dsimp only
  split <;> rfl

theorem latlonDict_two (k1 k2 s1 s2 : List Char) (q1 q2 : ℚ)
    (hk1 : ∀ c ∈ k1, c ≠ ':') (hk2 : ∀ c ∈ k2, c ≠ ':')
    (hne : k1 ≠ k2)
    (hs1 : ∀ c ∈ s1, goodFloatChar c = true)
    (hs2 : ∀ c ∈ s2, goodFloatChar c = true)
    (hf1 : pyFloatCore s1 = some q1) (hf2 : pyFloatCore s2 = some q2) :
    latlonDict [k1 ++ ':' :: ' ' :: s1, k2 ++ ':' :: ' ' :: s2] [] =
      .ok [(k1, q1), (k2, q2)] := by
  unfold latlonDict
  rw [latlonDictStep_eval [] k1 s1 q1 hk1 hs1 hf1]
  have e1 : (if ([] : List (List Char × ℚ)).any (fun e => e.1 = k1) then
      ([] : List (List Char × ℚ)).map (fun e => if e.1 = k1 then (k1, q1) else e)
    else [] ++ [(k1, q1)]) = [(k1, q1)] := by simp
  rw [e1, except_bind_ok]
  unfold latlonDict
  rw [latlonDictStep_eval [(k1, q1)] k2 s2 q2 hk2 hs2 hf2]
  have e2 : (if [(k1, q1)].any (fun e => e.1 = k2) then
      [(k1, q1)].map (fun e => if e.1 = k2 then (k2, q2) else e)
    else [(k1, q1)] ++ [(k2, q2)]) = [(k1, q1), (k2, q2)] := by
    simp [hne]
  rw [e2, except_bind_ok]
  rfl

theorem parse_latlon_pair (k1 k2 s1 s2 : List Char) (q1 q2 : ℚ)
    (hk1 : ∀ c ∈ k1, c ≠ ',' ∧ c ≠ ':' ∧ isPySpace c = false)
    (hk2 : ∀ c ∈ k2, c ≠ ',' ∧ c ≠ ':' ∧ isPySpace c = false)
    (hk1n : k1 ≠ []) (hk2n : k2 ≠ []) (hne : k1 ≠ k2)
    (hf1 : pyFloatCore s1 = some q1) (hf2 : pyFloatCore s2 = some q2) :
    parse_latlon (kvLine k1 s1 k2 s2) = (do
      let latitude ← latlonGet [(k1, q1), (k2, q2)] ['l', 'a', 't']
      let longitude ← latlonGet [(k1, q1), (k2, q2)] ['l', 'o', 'n']
      latlonBoundsCheck latitude longitude) := by
  have hchars1 := pyFloatCore_chars s1 q1 hf1
  have hchars2 := pyFloatCore_chars s2 q2 hf2
  have hs1good : ∀ c ∈ s1, goodFloatChar c = true := hchars1.2
  have hs2good : ∀ c ∈ s2, goodFloatChar c = true := hchars2.2
  unfold parse_latlon kvLine
  dsimp only
  have hstrip : pyStrip (k1 ++ ':' :: ' ' ::
      (s1 ++ ',' :: ' ' :: (k2 ++ ':' :: ' ' :: s2))) =
      k1 ++ ':' :: ' ' :: (s1 ++ ',' :: ' ' :: (k2 ++ ':' :: ' ' :: s2)) := by
    apply pyStrip_eq_self
    · intro c hc
      rw [head?_append_of_ne_nil k1 _ hk1n] at hc
      have hcmem : c ∈ k1 := by
        cases k1 with
        | nil => exact absurd rfl hk1n
        | cons a t =>
          have : a = c := by simpa using hc
          rw [← this]
          simp
      exact (hk1 c hcmem).2.2
    · intro c hc
      rw [getLast?_append_right _ _ (by simp),
        getLast?_cons_of_ne_nil _ _ (by simp),
        getLast?_cons_of_ne_nil _ _ (by simp),
        getLast?_append_right _ _ (by simp),
        getLast?_cons_of_ne_nil _ _ (by simp),
        getLast?_cons_of_ne_nil _ _ (by simp [hchars2.1]),
        getLast?_append_right _ _ (by simp),
        getLast?_cons_of_ne_nil _ _ (by simp),
        getLast?_cons_of_ne_nil _ _ hchars2.1] at hc
      have hcmem : c ∈ s2 := List.mem_of_getLast?_eq_some hc
      exact (goodFloatChar_props c (hs2good c hcmem)).2.2
  rw [hstrip]
  have hL : k1 ++ ':' :: ' ' :: (s1 ++ ',' :: ' ' :: (k2 ++ ':' :: ' ' :: s2)) =
      (k1 ++ ':' :: ' ' :: s1) ++ ',' :: ' ' :: (k2 ++ ':' :: ' ' :: s2) := by
    simp
  rw [hL]
  have hxnc : ∀ c ∈ k1 ++ ':' :: ' ' :: s1, c ≠ ',' := by
    intro c hc
    rcases List.mem_append.mp hc with hc | hc
    · exact (hk1 c hc).1
    · rcases List.mem_cons.mp hc with hc | hc
      · rw [hc]; decide
      · rcases List.mem_cons.mp hc with hc | hc
        · rw [hc]; decide
        · exact (goodFloatChar_props c (hs1good c hc)).1
  have hync : ∀ c ∈ k2 ++ ':' :: ' ' :: s2, c ≠ ',' := by
    intro c hc
    rcases List.mem_append.mp hc with hc | hc
    · exact (hk2 c hc).1
    · rcases List.mem_cons.mp hc with hc | hc
      · rw [hc]; decide
      · rcases List.mem_cons.mp hc with hc | hc
        · rw [hc]; decide
        · exact (goodFloatChar_props c (hs2good c hc)).1
  rw [pySplit2_append ',' ' ' _ _ hxnc, pySplit2_no_sep ',' ' ' _ hync]
  rw [latlonDict_two k1 k2 s1 s2 q1 q2 (fun c hc => (hk1 c hc).2.1)
    (fun c hc => (hk2 c hc).2.1) hne hs1good hs2good hf1 hf2]
  rw [except_bind_ok]

/-- **C2** (confirmed): for every coordinate line `lat: X, lon: Y`
whose values are decimal literals parsing to rationals X and Y (Python
floats modelled exactly over ℚ), `parse_latlon` returns exactly
latitude X and longitude Y when X lies in [-90, 90] and Y in
[-180, 180], and fails with `ValueError` when X or Y is out of
range. -/
theorem c2_parse_latlon_bounds :
    ∀ (s1 s2 : List Char) (q1 q2 : ℚ),
      pyFloatCore s1 = some q1 → pyFloatCore s2 = some q2 →
      ((-90 ≤ q1 ∧ q1 ≤ 90 ∧ -180 ≤ q2 ∧ q2 ≤ 180) →
        parse_latlon (latlonLine s1 s2) =
          .ok { latitude := q1, longitude := q2 })
      ∧ ((¬(-90 ≤ q1 ∧ q1 ≤ 90) ∨ ¬(-180 ≤ q2 ∧ q2 ≤ 180)) →
        parse_latlon (latlonLine s1 s2) = .error .valueError) := by
  intro s1 s2 q1 q2 hf1 hf2
  have hkey1 : ∀ c ∈ latKey, c ≠ ',' ∧ c ≠ ':' ∧ isPySpace c = false := by
    decide
  have hkey2 : ∀ c ∈ lonKey, c ≠ ',' ∧ c ≠ ':' ∧ isPySpace c = false := by
    decide
  have hpair := parse_latlon_pair latKey lonKey s1 s2 q1 q2 hkey1 hkey2
    (by decide) (by decide) (by decide) hf1 hf2
  rw [show latlonLine s1 s2 = kvLine latKey s1 lonKey s2 from rfl, hpair]
  have hlat : latlonGet [(latKey, q1), (lonKey, q2)] ['l', 'a', 't'] =
      .ok q1 := rfl
  have hlon : latlonGet [(latKey, q1), (lonKey, q2)] ['l', 'o', 'n'] =
      .ok q2 := rfl
  rw [hlat, except_bind_ok, hlon, except_bind_ok]
  constructor
  · intro hb
    unfold latlonBoundsCheck
    rw [if_neg]
    rintro (hcon | hcon)
    · exact hcon ⟨hb.1, hb.2.1⟩
    · exact hcon ⟨hb.2.2.1, hb.2.2.2⟩
  · intro hb
    unfold latlonBoundsCheck
    rw [if_pos hb]

/-- Witness for C2: `lat: 40, lon: -73` parses to latitude 40 and
longitude -73. -/
theorem c2_witness :
    parse_latlon (latlonLine ['4', '0'] ['-', '7', '3']) =
      .ok { latitude := 40, longitude := -73 } :=
  (c2_parse_latlon_bounds ['4', '0'] ['-', '7', '3'] 40 (-73)
    (by decide) (by decide)).1 (by norm_num)

/-- Counterexample for C7 as stated: the reordered line
`lon: 1, lat: 2` is accepted (the claim says it must be rejected),
because `parse_latlon` looks the two values up by key name rather than
by position. -/
theorem c7_counterexample :
    parse_latlon "lon: 1, lat: 2" =
      .ok { latitude := 2, longitude := 1 } := by
  have h := parse_latlon_pair lonKey latKey ['1'] ['2'] 1 2
    (by decide) (by decide) (by decide) (by decide) (by decide)
    (by decide) (by decide)
  rw [show ("lon: 1, lat: 2" : String) = kvLine lonKey ['1'] latKey ['2']
    from rfl, h]
  rfl

/-- **C7** (corrected): the parser does require the `": "` key-value
separator and the `", "` pair separator with keys named exactly `lat`
and `lon`, but the pairs are looked up by key, not positionally: the
reordered line `lon: Y, lat: X` is accepted with latitude X and
longitude Y; surrounding whitespace is tolerated (the line is stripped
and Python `float` strips whitespace around the value); whitespace
attached to a key (`lat : 1`) fails with `KeyError`, and a missing
space after the colon (`lat:1`) fails with `IndexError`. -/
theorem c7_grammar_flexibility :
    (∀ (sLat sLon : List Char) (qLat qLon : ℚ),
      pyFloatCore sLat = some qLat → pyFloatCore sLon = some qLon →
      (-90 ≤ qLat ∧ qLat ≤ 90 ∧ -180 ≤ qLon ∧ qLon ≤ 180) →
      parse_latlon (lonlatLine sLon sLat) =
        .ok { latitude := qLat, longitude := qLon })
    ∧ parse_latlon " lat: 1, lon: 2 " = .ok { latitude := 1, longitude := 2 }
    ∧ parse_latlon "lat : 1, lon: 2" = .error (.keyError "lat")
    ∧ parse_latlon "lat:1, lon: 2" = .error .indexError := by
  refine ⟨?_, by decide, by decide, by decide⟩
  intro sLat sLon qLat qLon hfLat hfLon hb
  have hkey1 : ∀ c ∈ lonKey, c ≠ ',' ∧ c ≠ ':' ∧ isPySpace c = false := by
    decide
  have hkey2 : ∀ c ∈ latKey, c ≠ ',' ∧ c ≠ ':' ∧ isPySpace c = false := by
    decide
  have hpair := parse_latlon_pair lonKey latKey sLon sLat qLon qLat
    hkey1 hkey2 (by decide) (by decide) (by decide) hfLon hfLat
  rw [show lonlatLine sLon sLat = kvLine lonKey sLon latKey sLat from rfl,
    hpair]
  have hlat : latlonGet [(lonKey, qLon), (latKey, qLat)] ['l', 'a', 't'] =
      .ok qLat := rfl
  have hlon : latlonGet [(lonKey, qLon), (latKey, qLat)] ['l', 'o', 'n'] =
      .ok qLon := rfl
  rw [hlat, except_bind_ok, hlon, except_bind_ok]
  unfold latlonBoundsCheck
  rw [if_neg]
  rintro (hcon | hcon)
  · exact hcon ⟨hb.1, hb.2.1⟩
  · exact hcon ⟨hb.2.2.1, hb.2.2.2⟩

/-- Witness for C7: the reordered concrete line `lon: 5, lat: 6`. -/
theorem c7_witness :
    parse_latlon (lonlatLine ['5'] ['6']) =
      .ok { latitude := 6, longitude := 5 } :=
  c7_grammar_flexibility.1 ['6'] ['5'] 6 5 (by decide) (by decide)
    (by norm_num)
